import Mathlib

/-!
Shallow embedding of the string storage engine of str.hpp (classes str,
str_sized<N> and str_ref): the packed header record (data pointer, length,
21-bit capacity field, 10-bit local-buffer-size field, ownership bit), the
storage-transition operations (reserve, reserve_discard, clear_no_free),
the mutation primitives (set, set_ref, truncate, pop_back, the no-grow
formatted write) and the substring/charset search helpers.

Modelling conventions:
* A byte is a natural number; 0 is the NUL terminator.
* `buf` holds the bytes of the buffer `m_data` currently points at; `kind`
  records which buffer that is (the shared empty dummy singleton, the
  embedded local buffer of the instance, a heap block, or externally owned
  memory bound by set_ref).
* The 21-bit and 10-bit signed bit-fields `m_capacity` and
  `m_local_buffer_size` wrap on assignment exactly as signed bit-fields do under
  two-complement truncation (`wrap21` / `wrap10`).
* Heap allocations and frees are counted (`allocCount` / `freeCount`);
  malloc is assumed to succeed, matching the fatal-assert policy of the engine.
* Every STR_ASSERT whose condition is expressible in the model sets a
  sticky `asserted` flag when its condition is false (`chk`).
* A store through `m_data` at an out-of-range index is undefined behavior
  in the source; `store`/`memwrite` model such a store as leaving the
  buffer unchanged (the surrounding theorems only draw conclusions from
  in-range stores, or from header fields that the source assigns anyway).
* vsnprintf is external to the engine; it is modelled by its documented
  contract: given the full intended output (or an encoding error, `none`),
  it writes at most `size - 1` bytes plus a terminator and returns the
  length the full output would have.
-/

namespace StrModel

/-- Bytes of the character buffers; 0 plays the role of the NUL terminator. -/
abbrev Byte := Nat

/-- Which buffer the `m_data` pointer of an instance currently designates. -/
inductive BufKind where
  | dummy
  | localBuf
  | heapBuf
  | refBuf
  deriving DecidableEq, Repr

/-- The header record of class str (str.hpp lines 446-451) together with the
bytes of the buffer `m_data` points at and the bookkeeping described in the
file header. -/
structure StrState where
  kind : BufKind
  buf : List Byte
  m_length : Int
  m_capacity : Int
  m_local_buffer_size : Int
  m_owns_buffer : Bool
  allocCount : Nat
  freeCount : Nat
  asserted : Bool
  deriving DecidableEq, Repr

/-- Assignment to the signed 21-bit bit-field `m_capacity : int32_t : 21`
truncates to the low 21 bits, read back as a signed value. -/
def wrap21 (x : Int) : Int := (x + 1048576) % 2097152 - 1048576

/-- Assignment to the signed 10-bit bit-field
`m_local_buffer_size : int32_t : 10`. -/
def wrap10 (x : Int) : Int := (x + 512) % 1024 - 512

/-- Largest value the signed 21-bit capacity field can hold. -/
def capMax : Int := 1048575

/-- A fixed nonzero byte standing for an indeterminate byte
of freshly allocated memory. -/
def junk : Byte := 63

/-- Model of STR_ASSERT: record a violated assertion in the sticky flag. -/
def chk (st : StrState) (p : Prop) [Decidable p] : StrState :=
  if p then st else { st with asserted := true }

/-- A single store `m_data[i] = c`. An out-of-range store is undefined
behavior in the source and leaves the modelled buffer unchanged. -/
def store (l : List Byte) (i : Int) (c : Byte) : List Byte :=
  if 0 ≤ i ∧ i < (l.length : Int) then l.set i.toNat c else l

/-- memcpy of the whole of `src` to `m_data + i`. An out-of-range copy is
undefined behavior in the source and leaves the modelled buffer unchanged. -/
def memwrite (dst : List Byte) (i : Int) (src : List Byte) : List Byte :=
  if 0 ≤ i ∧ i + (src.length : Int) ≤ (dst.length : Int) then
    dst.take i.toNat ++ src ++ dst.drop (i.toNat + src.length)
  else dst

/-- std::strlen: number of bytes before the first NUL. -/
def strlen (s : List Byte) : Int := ((s.takeWhile (· != 0)).length : Int)

/-- std::strcpy dst src: copies the bytes of src up to and including its
first NUL to the start of dst. -/
def strcpy_into (dst src : List Byte) : List Byte :=
  memwrite dst 0 (src.takeWhile (· != 0) ++ [0])

/-- Reading the pointer returned by str::c_str() (str.hpp:1000-1003) as a
C string: the bytes of the active buffer before the first NUL. -/
def c_str (st : StrState) : List Byte := st.buf.takeWhile (· != 0)

/-- str::length() (str.hpp:970-973). -/
def length (st : StrState) : Int := st.m_length

/-- str::capacity() (str.hpp:975-978). -/
def capacity (st : StrState) : Int := st.m_capacity

/-- str::owns_buffer() (str.hpp:990-993). -/
def owns_buffer (st : StrState) : Bool := st.m_owns_buffer

/-- str::using_local_buffer() (str.hpp:995-998):
`m_data == get_local_buffer() && m_local_buffer_size != 0`. -/
def using_local_buffer (st : StrState) : Bool :=
  st.kind = BufKind.localBuf ∧ st.m_local_buffer_size ≠ 0

/-- The default constructor str::str() (str.hpp:1123-1130): points at the
shared empty dummy singleton (four NUL bytes, str.hpp:1153-1161). -/
def mkEmpty : StrState :=
  { kind := BufKind.dummy
    buf := [0, 0, 0, 0]
    m_length := 0
    m_capacity := 0
    m_local_buffer_size := 0
    m_owns_buffer := false
    allocCount := 0
    freeCount := 0
    asserted := false }

/-- The protected constructor str::str(int local_buf_size)
(str.hpp:1132-1142) used by str_sized<N>: starts in local mode, asserts
`local_buf_size < 1024`, writes the terminator at index 0. The embedded
array physically has `local_buf_size` bytes. -/
def mkSized (local_buf_size : Int) : StrState :=
  let st : StrState :=
    { kind := BufKind.localBuf
      buf := store (List.replicate local_buf_size.toNat junk) 0 0
      m_length := 0
      m_capacity := wrap21 local_buf_size
      m_local_buffer_size := wrap10 local_buf_size
      m_owns_buffer := true
      allocCount := 0
      freeCount := 0
      asserted := false }
  chk st (local_buf_size < 1024)

/-- The release of the old buffer performed by reserve, reserve_discard and
set_ref: `if (m_owns_buffer && !using_local_buffer()) { STR_ASSERT(m_data !=
dummy); STR_MEM_FREE(m_data); }`. -/
def freeOldBuffer (st : StrState) : StrState :=
  if st.m_owns_buffer = true ∧ using_local_buffer st = false then
    let st1 := chk st (st.kind ≠ BufKind.dummy)
    { st1 with freeCount := st1.freeCount + 1 }
  else st

/-- str::clear_no_free() (str.hpp:1025-1032): if `m_data` is not the dummy
singleton, write a terminator at index 0 and zero the length. -/
def clear_no_free (st : StrState) : StrState :=
  if st.kind = BufKind.dummy then st
  else { st with buf := store st.buf 0 0, m_length := 0 }

/-- str::reserve(int,int) (str.hpp:1662-1702): grow-only reservation that
preserves the buffer contents via strcpy. The new block is obtained and
filled before the old block is freed, exactly as in the source. -/
def reserve (st0 : StrState) (new_capacity extra : Int) : StrState :=
  let st := chk st0 (0 ≤ extra)
  if new_capacity ≤ st.m_capacity then st
  else if new_capacity < st.m_local_buffer_size then
    let dst := strcpy_into (List.replicate st.m_local_buffer_size.toNat junk) st.buf
    let st1 := freeOldBuffer st
    { st1 with
      kind := BufKind.localBuf
      buf := dst
      m_capacity := wrap21 st.m_local_buffer_size
      m_owns_buffer := true }
  else
    let cap := new_capacity + extra
    let dst := strcpy_into (List.replicate cap.toNat junk) st.buf
    let st1 := freeOldBuffer { st with allocCount := st.allocCount + 1 }
    { st1 with
      kind := BufKind.heapBuf
      buf := dst
      m_capacity := wrap21 cap
      m_owns_buffer := true }

/-- str::reserve_discard(int,int) (str.hpp:1704-1741): reservation that
frees the old block first, skips the copy, and resets the string to empty
(terminator at index 0, length 0, owned). -/
def reserve_discard (st0 : StrState) (new_capacity extra : Int) : StrState :=
  let st := chk st0 (0 ≤ extra)
  if new_capacity ≤ st.m_capacity then st
  else
    let st1 := freeOldBuffer st
    if new_capacity < st1.m_local_buffer_size then
      let st2 :=
        { st1 with
          kind := BufKind.localBuf
          buf := List.replicate st1.m_local_buffer_size.toNat junk
          m_capacity := wrap21 st1.m_local_buffer_size }
      { st2 with buf := store st2.buf 0 0, m_length := 0, m_owns_buffer := true }
    else
      let cap := new_capacity + extra
      let st2 :=
        { st1 with
          kind := BufKind.heapBuf
          buf := List.replicate cap.toNat junk
          m_capacity := wrap21 cap
          allocCount := st1.allocCount + 1 }
      { st2 with buf := store st2.buf 0 0, m_length := 0, m_owns_buffer := true }

/-- str::set(const char*, int, int) (str.hpp:1163-1189). `src` is the byte
region the source pointer designates (including any terminator bytes). -/
def set (st0 : StrState) (src : List Byte) (first count : Int) : StrState :=
  let st := chk (chk st0 (0 ≤ first)) (0 ≤ count)
  let s := src.drop first.toNat
  if s.getD 0 0 = 0 ∨ count = 0 then clear_no_free st
  else
    let chars_needed := count + 1
    let st1 := if st.m_capacity < chars_needed then reserve_discard st chars_needed 16 else st
    let buf1 := memwrite st1.buf 0 (s.take count.toNat)
    let buf2 := store buf1 count 0
    { st1 with buf := buf2, m_length := count, m_owns_buffer := true }

/-- str::set(const char*) (str.hpp:791-794): forwards to
`set(src, 0, str::length(src))` where str::length is strlen. -/
def set_cstring (st : StrState) (src : List Byte) : StrState :=
  set st src 0 (strlen src)

/-- str::set_ref(const char*, int) (str.hpp:1191-1213). -/
def set_ref (st : StrState) (src : List Byte) (first : Int) : StrState :=
  let s := src.drop first.toNat
  if s.getD 0 0 = 0 then clear_no_free st
  else
    let st1 := freeOldBuffer st
    { st1 with
      kind := BufKind.refBuf
      buf := s
      m_length := strlen s
      m_capacity := 0
      m_owns_buffer := false }

/-- str::truncate(int) (str.hpp:1602-1610). -/
def truncate (st : StrState) (max_len : Int) : StrState :=
  if max_len < st.m_length then
    { st with m_length := max_len, buf := store st.buf max_len 0 }
  else st

/-- str::pop_back() (str.hpp:1041-1047). -/
def pop_back (st : StrState) : StrState :=
  if 0 < st.m_length then
    { st with m_length := st.m_length - 1, buf := store st.buf (st.m_length - 1) 0 }
  else st

/-- The write behavior of the platform primitive
`std::vsnprintf(dst, size, fmt, args)` whose full intended output is `out`:
with a positive size it writes `min (out.length) (size - 1)` bytes followed
by a terminator; with size 0 it writes nothing. -/
def vsnprintf_write (buf : List Byte) (size : Int) (out : List Byte) : List Byte :=
  if size ≤ 0 then buf
  else
    let n : Int := min (out.length : Int) (size - 1)
    store (memwrite buf 0 (out.take n.toNat)) n 0

/-- str::setfv_no_grow(const char*, va_list) (str.hpp:1532-1553). The
format/argument payload is abstracted by the full intended output of the
formatting primitive; `none` models an encoding error (negative return). -/
def setfv_no_grow (st : StrState) (fmt_out : Option (List Byte)) : Bool × StrState :=
  match fmt_out with
  | none => (false, clear_no_free st)
  | some out =>
    let buf1 := vsnprintf_write st.buf st.m_capacity out
    let result : Int := (out.length : Int)
    let result := if st.m_capacity ≤ result then st.m_capacity - 1 else result
    let buf2 := store buf1 result 0
    (true, { st with buf := buf2, m_length := result, m_owns_buffer := true })

/-- strncmp(a, b, n) == 0, reading a byte past the end of a modelled region
as NUL (the regions handed to it below always contain their NUL). -/
def strncmp_eq (a b : List Byte) : Nat → Bool
  | 0 => true
  | n + 1 =>
    let x := a.getD 0 0
    let y := b.getD 0 0
    if x ≠ y then false
    else if x = 0 then true
    else strncmp_eq a.tail b.tail n

/-- The scan loop of str::first_index_of(const char*) (str.hpp:1328-1334). -/
def scan_first : List Byte → List Byte → Nat → Int → Int
  | [], _, _, _ => -1
  | c :: rest, sub, subLen, i =>
    if c = 0 then -1
    else if c = sub.getD 0 0 ∧ strncmp_eq (c :: rest) sub subLen = true then i
    else scan_first rest sub subLen (i + 1)

/-- str::first_index_of(const char*) (str.hpp:1317-1337). -/
def first_index_of_sub (st : StrState) (substring : List Byte) : Int :=
  if st.m_length = 0 ∨ substring.getD 0 0 = 0 then -1
  else scan_first st.buf substring (strlen substring).toNat 0

/-- The scan loop of str::last_index_of(const char*) (str.hpp:1351-1358). -/
def scan_last : List Byte → List Byte → Nat → Int → Int → Int
  | [], _, _, _, last => last
  | c :: rest, sub, subLen, i, last =>
    if c = 0 then last
    else if c = sub.getD 0 0 ∧ strncmp_eq (c :: rest) sub subLen = true then
      scan_last rest sub subLen (i + 1) i
    else scan_last rest sub subLen (i + 1) last

/-- str::last_index_of(const char*) (str.hpp:1339-1361). -/
def last_index_of_sub (st : StrState) (substring : List Byte) : Int :=
  if st.m_length = 0 ∨ substring.getD 0 0 = 0 then -1
  else scan_last st.buf substring (strlen substring).toNat 0 (-1)

/-- The inner loop of str::find_any_matching_index: advance over the charset
until its NUL or the sought byte; the outer loop breaks iff the byte was
found before the NUL. -/
def charsetHas : List Byte → Byte → Bool
  | [], _ => false
  | d :: rest, c => if d = 0 then false else if d = c then true else charsetHas rest c

/-- The outer loop of str::find_any_matching_index (str.hpp:1374-1388):
distance travelled until the NUL of the buffer or a matching byte. -/
def scan_any : List Byte → List Byte → Int → Int
  | [], _, i => i
  | c :: rest, cs, i =>
    if c = 0 then i
    else if charsetHas cs c = true then i
    else scan_any rest cs (i + 1)

/-- str::find_any_matching_index(const char*) (str.hpp:1363-1392). -/
def find_any_matching_index (st : StrState) (charset : List Byte) : Int :=
  if st.m_length = 0 ∨ charset.getD 0 0 = 0 then -1
  else
    let match_index := scan_any st.buf charset 0
    if st.m_length ≤ match_index then -1 else match_index

/-- Well-formedness of a header state: length is the position of the first
NUL of the active buffer and lies strictly inside it, the capacity field is
a sane non-wrapped value bounded by the physical buffer, the bit-fields
carry values their widths can hold, and a state parked on the dummy
singleton is the pristine empty state. -/
def Wf (st : StrState) : Prop :=
  0 ≤ st.m_length ∧
  st.m_length < (st.buf.length : Int) ∧
  st.buf.getD st.m_length.toNat 1 = 0 ∧
  (∀ c ∈ st.buf.take st.m_length.toNat, c ≠ 0) ∧
  0 ≤ st.m_capacity ∧
  st.m_capacity ≤ (st.buf.length : Int) ∧
  st.m_capacity ≤ capMax ∧
  -512 ≤ st.m_local_buffer_size ∧
  st.m_local_buffer_size ≤ 511 ∧
  (st.kind = BufKind.dummy →
    st.buf = [0, 0, 0, 0] ∧ st.m_capacity = 0 ∧ st.m_owns_buffer = false ∧ st.m_length = 0)

instance (st : StrState) : Decidable (Wf st) := by
  unfold Wf
  infer_instance

/-! Structural lemmas about the building blocks of the model. -/

theorem chk_kind (st : StrState) (p : Prop) [Decidable p] : (chk st p).kind = st.kind := by
  unfold chk; split <;> rfl

theorem chk_buf (st : StrState) (p : Prop) [Decidable p] : (chk st p).buf = st.buf := by
  unfold chk; split <;> rfl

theorem chk_m_length (st : StrState) (p : Prop) [Decidable p] :
    (chk st p).m_length = st.m_length := by
  unfold chk; split <;> rfl

theorem chk_m_capacity (st : StrState) (p : Prop) [Decidable p] :
    (chk st p).m_capacity = st.m_capacity := by
  unfold chk; split <;> rfl

theorem chk_m_local_buffer_size (st : StrState) (p : Prop) [Decidable p] :
    (chk st p).m_local_buffer_size = st.m_local_buffer_size := by
  unfold chk; split <;> rfl

theorem chk_m_owns_buffer (st : StrState) (p : Prop) [Decidable p] :
    (chk st p).m_owns_buffer = st.m_owns_buffer := by
  unfold chk; split <;> rfl

theorem chk_allocCount (st : StrState) (p : Prop) [Decidable p] :
    (chk st p).allocCount = st.allocCount := by
  unfold chk; split <;> rfl

theorem chk_freeCount (st : StrState) (p : Prop) [Decidable p] :
    (chk st p).freeCount = st.freeCount := by
  unfold chk; split <;> rfl

theorem chk_true (st : StrState) (p : Prop) [Decidable p] (h : p) : chk st p = st := by
  unfold chk; exact if_pos h

theorem freeOldBuffer_kind (st : StrState) : (freeOldBuffer st).kind = st.kind := by
  unfold freeOldBuffer; split <;> simp [chk_kind]

theorem freeOldBuffer_buf (st : StrState) : (freeOldBuffer st).buf = st.buf := by
  unfold freeOldBuffer; split <;> simp [chk_buf]

theorem freeOldBuffer_m_length (st : StrState) :
    (freeOldBuffer st).m_length = st.m_length := by
  unfold freeOldBuffer; split <;> simp [chk_m_length]

theorem freeOldBuffer_m_capacity (st : StrState) :
    (freeOldBuffer st).m_capacity = st.m_capacity := by
  unfold freeOldBuffer; split <;> simp [chk_m_capacity]

theorem freeOldBuffer_m_local_buffer_size (st : StrState) :
    (freeOldBuffer st).m_local_buffer_size = st.m_local_buffer_size := by
  unfold freeOldBuffer; split <;> simp [chk_m_local_buffer_size]

theorem freeOldBuffer_m_owns_buffer (st : StrState) :
    (freeOldBuffer st).m_owns_buffer = st.m_owns_buffer := by
  unfold freeOldBuffer; split <;> simp [chk_m_owns_buffer]

theorem freeOldBuffer_allocCount (st : StrState) :
    (freeOldBuffer st).allocCount = st.allocCount := by
  unfold freeOldBuffer; split <;> simp [chk_allocCount]

theorem freeOldBuffer_freeCount_of_freed (st : StrState)
    (h : st.m_owns_buffer = true ∧ using_local_buffer st = false) :
    (freeOldBuffer st).freeCount = st.freeCount + 1 := by
  unfold freeOldBuffer; rw [if_pos h]; simp [chk_freeCount]

theorem freeOldBuffer_freeCount_of_kept (st : StrState)
    (h : ¬(st.m_owns_buffer = true ∧ using_local_buffer st = false)) :
    (freeOldBuffer st).freeCount = st.freeCount := by
  unfold freeOldBuffer; rw [if_neg h]

theorem clear_no_free_m_capacity (st : StrState) :
    (clear_no_free st).m_capacity = st.m_capacity := by
  unfold clear_no_free; split <;> rfl

theorem clear_no_free_kind (st : StrState) : (clear_no_free st).kind = st.kind := by
  unfold clear_no_free; split <;> rfl

theorem clear_no_free_m_local_buffer_size (st : StrState) :
    (clear_no_free st).m_local_buffer_size = st.m_local_buffer_size := by
  unfold clear_no_free; split <;> rfl

theorem clear_no_free_m_owns_buffer (st : StrState) :
    (clear_no_free st).m_owns_buffer = st.m_owns_buffer := by
  unfold clear_no_free; split <;> rfl

theorem clear_no_free_allocCount (st : StrState) :
    (clear_no_free st).allocCount = st.allocCount := by
  unfold clear_no_free; split <;> rfl

theorem store_length (l : List Byte) (i : Int) (c : Byte) :
    (store l i c).length = l.length := by
  unfold store; split <;> simp

theorem memwrite_length (dst : List Byte) (i : Int) (src : List Byte) :
    (memwrite dst i src).length = dst.length := by
  unfold memwrite
  split
  · rename_i h
    simp only [List.length_append, List.length_take, List.length_drop]
    omega
  · rfl

theorem memwrite_eq (dst : List Byte) (i : Int) (src : List Byte)
    (h1 : 0 ≤ i) (h2 : i + (src.length : Int) ≤ (dst.length : Int)) :
    memwrite dst i src = dst.take i.toNat ++ src ++ dst.drop (i.toNat + src.length) := by
  unfold memwrite; exact if_pos ⟨h1, h2⟩

theorem store_eq (l : List Byte) (i : Int) (c : Byte)
    (h1 : 0 ≤ i) (h2 : i < (l.length : Int)) :
    store l i c = l.set i.toNat c := by
  unfold store; exact if_pos ⟨h1, h2⟩

theorem takeWhile_append_term (s t : List Byte) (hs : ∀ c ∈ s, c ≠ 0) :
    (s ++ 0 :: t).takeWhile (· != 0) = s := by
  induction s with
  | nil => simp [List.takeWhile]
  | cons a s ih =>
    have ha : a ≠ 0 := hs a (by simp)
    simp only [List.cons_append, List.takeWhile_cons]
    rw [if_pos (by simpa using ha)]
    rw [ih (fun c hc => hs c (by simp [hc]))]

theorem takeWhile_set_term (s t : List Byte) (hs : ∀ c ∈ s, c ≠ 0) (ht : t ≠ []) :
    ((s ++ t).set s.length 0).takeWhile (· != 0) = s := by
  induction s with
  | nil =>
    cases t with
    | nil => exact absurd rfl ht
    | cons a t2 => simp [List.takeWhile]
  | cons a s ih =>
    have ha : a ≠ 0 := hs a (by simp)
    simp only [List.cons_append, List.length_cons, List.set_cons_succ, List.takeWhile_cons]
    rw [if_pos (by simpa using ha)]
    rw [ih (fun c hc => hs c (by simp [hc]))]

theorem takeWhile_eq_take (l : List Byte) (n : Nat)
    (h1 : n < l.length) (h2 : ∀ c ∈ l.take n, c ≠ 0) (h3 : l.getD n 1 = 0) :
    l.takeWhile (· != 0) = l.take n := by
  induction l generalizing n with
  | nil => simp at h1
  | cons a l ih =>
    cases n with
    | zero =>
      simp [List.getD] at h3
      simp [List.takeWhile_cons, h3]
    | succ n =>
      have ha : a ≠ 0 := h2 a (by simp)
      simp only [List.takeWhile_cons, List.take_succ_cons]
      rw [if_pos (by simpa using ha)]
      rw [ih n (by simpa using h1) (fun c hc => h2 c (by simp [hc])) (by simpa using h3)]

theorem strlen_append_term (s : List Byte) (hs : ∀ c ∈ s, c ≠ 0) :
    strlen (s ++ [0]) = (s.length : Int) := by
  unfold strlen
  rw [show s ++ [0] = s ++ 0 :: [] from rfl, takeWhile_append_term s [] hs]

theorem wrap21_eq_self (x : Int) (h1 : -1048576 ≤ x) (h2 : x ≤ 1048575) :
    wrap21 x = x := by
  unfold wrap21; omega

theorem wrap10_le_self (x : Int) (h : -512 ≤ x) : wrap10 x ≤ x := by
  unfold wrap10; omega

theorem wrap10_ne_zero (x : Int) (h1 : 1 ≤ x) (h2 : x ≤ 1023) : wrap10 x ≠ 0 := by
  unfold wrap10; omega

/-- Under well-formedness, the C-string view of the buffer is its first
m_length bytes. -/
theorem wf_c_str_eq_take (st : StrState) (h : Wf st) :
    st.buf.takeWhile (· != 0) = st.buf.take st.m_length.toNat := by
  obtain ⟨h1, h2, h3, h4, -⟩ := h
  exact takeWhile_eq_take st.buf st.m_length.toNat (by omega) h4 h3

/-- strcpy of a well-formed buffer into a fresh block of at least
m_length + 1 bytes reproduces the C-string content. -/
theorem c_str_strcpy_into (st : StrState) (hwf : Wf st) (m : Nat)
    (hm : st.m_length.toNat + 1 ≤ m) :
    (strcpy_into (List.replicate m junk) st.buf).takeWhile (· != 0) = c_str st := by
  obtain ⟨h1, h2, h3, h4, -⟩ := hwf
  have hc : st.buf.takeWhile (· != 0) = st.buf.take st.m_length.toNat :=
    takeWhile_eq_take st.buf st.m_length.toNat (by omega) h4 h3
  unfold strcpy_into
  rw [hc]
  have hlen : (st.buf.take st.m_length.toNat).length = st.m_length.toNat := by
    simp; omega
  rw [memwrite_eq _ _ _ le_rfl (by simp [hlen]; omega)]
  simp only [Int.toNat_zero, List.take_zero, List.nil_append, Nat.zero_add]
  rw [List.append_assoc, List.singleton_append]
  rw [takeWhile_append_term _ _ (fun c hc2 => h4 c hc2)]
  unfold c_str
  rw [hc]

/-! Path lemmas for set and reserve_discard. -/

theorem set_clear_eq (st : StrState) (src : List Byte) (count : Int)
    (h1 : 0 ≤ count)
    (hg : src.getD 0 0 = 0 ∨ count = 0) :
    set st src 0 count = clear_no_free st := by
  simp only [set, chk_true _ _ (le_refl (0 : Int)), chk_true _ _ h1,
    Int.toNat_zero, List.drop_zero]
  exact if_pos hg

theorem set_grow_eq (st : StrState) (src : List Byte) (count : Int)
    (h1 : 0 ≤ count)
    (hne : ¬(src.getD 0 0 = 0 ∨ count = 0))
    (hcap : st.m_capacity < count + 1) :
    set st src 0 count =
      { reserve_discard st (count + 1) 16 with
        buf := store (memwrite (reserve_discard st (count + 1) 16).buf 0
          (src.take count.toNat)) count 0
        m_length := count
        m_owns_buffer := true } := by
  simp only [set, chk_true _ _ (le_refl (0 : Int)), chk_true _ _ h1,
    Int.toNat_zero, List.drop_zero]
  rw [if_neg hne, if_pos hcap]

theorem set_nogrow_eq (st : StrState) (src : List Byte) (count : Int)
    (h1 : 0 ≤ count)
    (hne : ¬(src.getD 0 0 = 0 ∨ count = 0))
    (hcap : ¬ st.m_capacity < count + 1) :
    set st src 0 count =
      { st with
        buf := store (memwrite st.buf 0 (src.take count.toNat)) count 0
        m_length := count
        m_owns_buffer := true } := by
  simp only [set, chk_true _ _ (le_refl (0 : Int)), chk_true _ _ h1,
    Int.toNat_zero, List.drop_zero]
  rw [if_neg hne, if_neg hcap]

theorem set_grow_buf (st : StrState) (src : List Byte) (count : Int)
    (h1 : 0 ≤ count)
    (hne : ¬(src.getD 0 0 = 0 ∨ count = 0))
    (hcap : st.m_capacity < count + 1) :
    (set st src 0 count).buf =
      store (memwrite (reserve_discard st (count + 1) 16).buf 0
        (src.take count.toNat)) count 0 := by
  rw [set_grow_eq st src count h1 hne hcap]

theorem set_grow_m_length (st : StrState) (src : List Byte) (count : Int)
    (h1 : 0 ≤ count)
    (hne : ¬(src.getD 0 0 = 0 ∨ count = 0))
    (hcap : st.m_capacity < count + 1) :
    (set st src 0 count).m_length = count := by
  rw [set_grow_eq st src count h1 hne hcap]

theorem set_grow_m_owns_buffer (st : StrState) (src : List Byte) (count : Int)
    (h1 : 0 ≤ count)
    (hne : ¬(src.getD 0 0 = 0 ∨ count = 0))
    (hcap : st.m_capacity < count + 1) :
    (set st src 0 count).m_owns_buffer = true := by
  rw [set_grow_eq st src count h1 hne hcap]

theorem set_grow_kind (st : StrState) (src : List Byte) (count : Int)
    (h1 : 0 ≤ count)
    (hne : ¬(src.getD 0 0 = 0 ∨ count = 0))
    (hcap : st.m_capacity < count + 1) :
    (set st src 0 count).kind = (reserve_discard st (count + 1) 16).kind := by
  rw [set_grow_eq st src count h1 hne hcap]

theorem set_grow_m_capacity (st : StrState) (src : List Byte) (count : Int)
    (h1 : 0 ≤ count)
    (hne : ¬(src.getD 0 0 = 0 ∨ count = 0))
    (hcap : st.m_capacity < count + 1) :
    (set st src 0 count).m_capacity = (reserve_discard st (count + 1) 16).m_capacity := by
  rw [set_grow_eq st src count h1 hne hcap]

theorem set_grow_m_local_buffer_size (st : StrState) (src : List Byte) (count : Int)
    (h1 : 0 ≤ count)
    (hne : ¬(src.getD 0 0 = 0 ∨ count = 0))
    (hcap : st.m_capacity < count + 1) :
    (set st src 0 count).m_local_buffer_size =
      (reserve_discard st (count + 1) 16).m_local_buffer_size := by
  rw [set_grow_eq st src count h1 hne hcap]

theorem set_grow_allocCount (st : StrState) (src : List Byte) (count : Int)
    (h1 : 0 ≤ count)
    (hne : ¬(src.getD 0 0 = 0 ∨ count = 0))
    (hcap : st.m_capacity < count + 1) :
    (set st src 0 count).allocCount = (reserve_discard st (count + 1) 16).allocCount := by
  rw [set_grow_eq st src count h1 hne hcap]

theorem set_nogrow_buf (st : StrState) (src : List Byte) (count : Int)
    (h1 : 0 ≤ count)
    (hne : ¬(src.getD 0 0 = 0 ∨ count = 0))
    (hcap : ¬ st.m_capacity < count + 1) :
    (set st src 0 count).buf =
      store (memwrite st.buf 0 (src.take count.toNat)) count 0 := by
  rw [set_nogrow_eq st src count h1 hne hcap]

theorem set_nogrow_m_length (st : StrState) (src : List Byte) (count : Int)
    (h1 : 0 ≤ count)
    (hne : ¬(src.getD 0 0 = 0 ∨ count = 0))
    (hcap : ¬ st.m_capacity < count + 1) :
    (set st src 0 count).m_length = count := by
  rw [set_nogrow_eq st src count h1 hne hcap]

theorem set_nogrow_kind (st : StrState) (src : List Byte) (count : Int)
    (h1 : 0 ≤ count)
    (hne : ¬(src.getD 0 0 = 0 ∨ count = 0))
    (hcap : ¬ st.m_capacity < count + 1) :
    (set st src 0 count).kind = st.kind := by
  rw [set_nogrow_eq st src count h1 hne hcap]

theorem set_nogrow_m_local_buffer_size (st : StrState) (src : List Byte) (count : Int)
    (h1 : 0 ≤ count)
    (hne : ¬(src.getD 0 0 = 0 ∨ count = 0))
    (hcap : ¬ st.m_capacity < count + 1) :
    (set st src 0 count).m_local_buffer_size = st.m_local_buffer_size := by
  rw [set_nogrow_eq st src count h1 hne hcap]

theorem set_nogrow_allocCount (st : StrState) (src : List Byte) (count : Int)
    (h1 : 0 ≤ count)
    (hne : ¬(src.getD 0 0 = 0 ∨ count = 0))
    (hcap : ¬ st.m_capacity < count + 1) :
    (set st src 0 count).allocCount = st.allocCount := by
  rw [set_nogrow_eq st src count h1 hne hcap]

/-- reserve_discard on the heap path: all header fields of the result. -/
theorem reserve_discard_heap_fields (st : StrState) (n extra : Int)
    (hx : 0 ≤ extra)
    (h1 : ¬ n ≤ st.m_capacity)
    (h2 : ¬ n < st.m_local_buffer_size) :
    (reserve_discard st n extra).kind = BufKind.heapBuf ∧
    (reserve_discard st n extra).m_capacity = wrap21 (n + extra) ∧
    (reserve_discard st n extra).m_owns_buffer = true ∧
    (reserve_discard st n extra).m_length = 0 ∧
    (reserve_discard st n extra).allocCount = st.allocCount + 1 ∧
    (reserve_discard st n extra).m_local_buffer_size = st.m_local_buffer_size ∧
    (reserve_discard st n extra).buf.length = (n + extra).toNat := by
  simp only [reserve_discard, chk_true _ _ hx]
  rw [if_neg h1]
  rw [if_neg (by rw [freeOldBuffer_m_local_buffer_size]; exact h2)]
  refine ⟨rfl, rfl, rfl, rfl, ?_, ?_, ?_⟩
  · simp [freeOldBuffer_allocCount]
  · simp [freeOldBuffer_m_local_buffer_size]
  · simp [store_length]

/-- reserve_discard always leaves a buffer with room for n bytes when the
current state is well-formed in the capacity/buffer relation. -/
theorem reserve_discard_room (st : StrState) (n extra : Int)
    (hx : 0 ≤ extra) (hn : 0 ≤ n)
    (hcaple : st.m_capacity ≤ (st.buf.length : Int)) :
    n ≤ ((reserve_discard st n extra).buf.length : Int) := by
  simp only [reserve_discard, chk_true _ _ hx]
  by_cases h1 : n ≤ st.m_capacity
  · rw [if_pos h1]; omega
  · rw [if_neg h1]
    by_cases h2 : n < (freeOldBuffer st).m_local_buffer_size
    · rw [if_pos h2]
      have hlbs : n < st.m_local_buffer_size := by
        rw [freeOldBuffer_m_local_buffer_size] at h2; exact h2
      simp only [store_length, List.length_replicate, freeOldBuffer_m_local_buffer_size]
      omega
    · rw [if_neg h2]
      simp only [store_length, List.length_replicate]
      omega

theorem reserve_noop_eq (st : StrState) (n extra : Int)
    (hx : 0 ≤ extra) (h : n ≤ st.m_capacity) :
    reserve st n extra = st := by
  simp only [reserve, chk_true _ _ hx]
  exact if_pos h

theorem reserve_local_eq (st : StrState) (n extra : Int)
    (hx : 0 ≤ extra) (h1 : ¬ n ≤ st.m_capacity) (h2 : n < st.m_local_buffer_size) :
    reserve st n extra =
      { freeOldBuffer st with
        kind := BufKind.localBuf
        buf := strcpy_into (List.replicate st.m_local_buffer_size.toNat junk) st.buf
        m_capacity := wrap21 st.m_local_buffer_size
        m_owns_buffer := true } := by
  simp only [reserve, chk_true _ _ hx]
  rw [if_neg h1, if_pos h2]

theorem reserve_heap_eq (st : StrState) (n extra : Int)
    (hx : 0 ≤ extra) (h1 : ¬ n ≤ st.m_capacity) (h2 : ¬ n < st.m_local_buffer_size) :
    reserve st n extra =
      { freeOldBuffer { st with allocCount := st.allocCount + 1 } with
        kind := BufKind.heapBuf
        buf := strcpy_into (List.replicate (n + extra).toNat junk) st.buf
        m_capacity := wrap21 (n + extra)
        m_owns_buffer := true } := by
  simp only [reserve, chk_true _ _ hx]
  rw [if_neg h1, if_neg h2]

theorem getD_zero_replicate_append (n : Nat) (a : Byte) (t : List Byte) (h : 0 < n) :
    (List.replicate n a ++ t).getD 0 0 = a := by
  cases n with
  | zero => omega
  | succ m => simp [List.replicate_succ, List.getD]

/-- clear_no_free of a well-formed state leaves an empty C string. -/
theorem clear_no_free_empties (st : StrState) (hwf : Wf st) :
    c_str (clear_no_free st) = [] ∧ (clear_no_free st).m_length = 0 := by
  obtain ⟨h1, h2, h3, h4, h5, h6, h7, h8, h9, h10⟩ := hwf
  unfold clear_no_free
  by_cases hk : st.kind = BufKind.dummy
  · rw [if_pos hk]
    obtain ⟨hbuf, -, -, hlen0⟩ := h10 hk
    constructor
    · unfold c_str; rw [hbuf]; rfl
    · exact hlen0
  · rw [if_neg hk]
    refine ⟨?_, rfl⟩
    unfold c_str
    show (store st.buf 0 0).takeWhile (· != 0) = []
    rw [store_eq st.buf 0 0 le_rfl (by omega)]
    have := takeWhile_set_term [] st.buf (by simp)
      (List.ne_nil_of_length_pos (by omega))
    simpa using this

/-- Writing a NUL-free payload followed by a terminator into a buffer with
room for it makes the C-string view of the buffer exactly the payload. -/
theorem c_str_write_payload (b s : List Byte)
    (hs : ∀ c ∈ s, c ≠ 0)
    (hroom : s.length + 1 ≤ b.length) :
    (store (memwrite b 0 s) ((s.length : Nat) : Int) 0).takeWhile (· != 0) = s := by
  rw [memwrite_eq b 0 s le_rfl (by push_cast; omega)]
  simp only [Int.toNat_zero, List.take_zero, List.nil_append, Nat.zero_add]
  rw [store_eq _ _ _ (by positivity)
    (by simp only [List.length_append, List.length_drop]; push_cast; omega)]
  have hd : b.drop s.length ≠ [] := by
    apply List.ne_nil_of_length_pos
    simp only [List.length_drop]
    omega
  have htn : (((s.length : Nat) : Int)).toNat = s.length := rfl
  rw [htn]
  exact takeWhile_set_term s (b.drop s.length) hs hd

/-! Claim theorems. -/

/-- C1: for every valid byte sequence s without embedded terminators whose
length is within the representable capacity, set(s) followed by c_str()
reproduces s exactly and length() equals the number of bytes of s. The
argument handed to set is the C string s followed by its terminator. -/
theorem c1_set_c_str_roundtrip (st : StrState) (s : List Byte)
    (hwf : Wf st) (hs : ∀ c ∈ s, c ≠ 0)
    (hrep : (s.length : Int) + 17 ≤ capMax) :
    c_str (set_cstring st (s ++ [0])) = s ∧
    (set_cstring st (s ++ [0])).m_length = (s.length : Int) := by
  have hlen := strlen_append_term s hs
  unfold set_cstring
  rw [hlen]
  by_cases hnil : s = []
  · subst hnil
    simp only [List.length_nil, Nat.cast_zero]
    rw [set_clear_eq st ([] ++ [0]) 0 le_rfl (Or.inr rfl)]
    exact clear_no_free_empties st hwf
  · have hpos : 0 < s.length := List.length_pos.mpr hnil
    have hL0 : (0 : Int) ≤ (s.length : Int) := by positivity
    have hhead : ¬((s ++ [0]).getD 0 0 = 0 ∨ (s.length : Int) = 0) := by
      intro h
      rcases h with h | h
      · cases s with
        | nil => exact hnil rfl
        | cons a s2 =>
          refine hs a (by simp) ?_
          simpa [List.getD] using h
      · omega
    have htake : (s ++ [0]).take ((s.length : Int)).toNat = s := by
      have htn : (((s.length : Nat) : Int)).toNat = s.length := rfl
      rw [htn]
      exact List.take_left s [0]
    obtain ⟨h1, h2, h3, h4, h5, h6, h7, h8, h9, h10⟩ := hwf
    by_cases hgrow : st.m_capacity < (s.length : Int) + 1
    · have hroom : (s.length : Int) + 1 ≤
          ((reserve_discard st ((s.length : Int) + 1) 16).buf.length : Int) :=
        reserve_discard_room st ((s.length : Int) + 1) 16 (by norm_num) (by omega) h6
      refine ⟨?_, set_grow_m_length st (s ++ [0]) (s.length : Int) hL0 hhead hgrow⟩
      unfold c_str
      rw [set_grow_buf st (s ++ [0]) (s.length : Int) hL0 hhead hgrow, htake]
      exact c_str_write_payload _ s hs (by omega)
    · refine ⟨?_, set_nogrow_m_length st (s ++ [0]) (s.length : Int) hL0 hhead hgrow⟩
      unfold c_str
      rw [set_nogrow_buf st (s ++ [0]) (s.length : Int) hL0 hhead hgrow, htake]
      exact c_str_write_payload _ s hs (by omega)

/-- Witness for C1: a default-constructed string assigned the three
bytes of a short word. -/
theorem c1_set_c_str_roundtrip_witness :
    Wf mkEmpty ∧ (∀ c ∈ ([104, 101, 121] : List Byte), c ≠ 0) ∧
    ((([104, 101, 121] : List Byte).length : Int) + 17 ≤ capMax) ∧
    (c_str (set_cstring mkEmpty ([104, 101, 121] ++ [0])) = [104, 101, 121] ∧
     (set_cstring mkEmpty ([104, 101, 121] ++ [0])).m_length =
       (([104, 101, 121] : List Byte).length : Int)) :=
  ⟨by decide, by decide, by decide,
   c1_set_c_str_roundtrip mkEmpty [104, 101, 121] (by decide) (by decide) (by decide)⟩

/-- C2: after any mutating operation the byte at index length() is the
terminator and length() is non-negative. The code refutes this:
setfv_no_grow on a freshly default-constructed string (capacity 0) reports
success while computing `result = m_capacity - 1 = -1`, storing the
terminator at the out-of-bounds index `m_data[-1]` and leaving
`m_length = -1`. -/
theorem c2_no_grow_zero_capacity_negative_length :
    (setfv_no_grow mkEmpty (some [104, 105])).1 = true ∧
    (setfv_no_grow mkEmpty (some [104, 105])).2.m_length = -1 := by
  decide

/-- C3: an engine that does not own its buffer never writes through the
data pointer. The code refutes this: after binding to external bytes
with set_ref (owns_buffer false), truncate stores a terminator into the
externally owned buffer, and clear_no_free and set with an empty source
store a terminator at its index 0. -/
theorem c3_nonowned_buffer_is_written :
    (set_ref mkEmpty [104, 101, 121, 33, 0] 0).m_owns_buffer = false ∧
    (truncate (set_ref mkEmpty [104, 101, 121, 33, 0] 0) 2).buf ≠
      (set_ref mkEmpty [104, 101, 121, 33, 0] 0).buf ∧
    (clear_no_free (set_ref mkEmpty [104, 101, 121, 33, 0] 0)).buf ≠
      (set_ref mkEmpty [104, 101, 121, 33, 0] 0).buf := by
  decide

/-- C9: pop_back() on an empty string (length() == 0) is a no-op, leaving
every header field and the buffer contents unchanged. -/
theorem c9_pop_back_empty_is_noop (st : StrState) (h : st.m_length = 0) :
    pop_back st = st := by
  simp [pop_back, h]

/-- Witness for C9 at a concrete empty string. -/
theorem c9_pop_back_empty_is_noop_witness :
    mkEmpty.m_length = 0 ∧ pop_back mkEmpty = mkEmpty :=
  ⟨rfl, c9_pop_back_empty_is_noop mkEmpty rfl⟩

/-- C10: first_index_of(substring), last_index_of(substring) and
find_any_matching_index(charset) return the sentinel -1 whenever the
string is empty or the needle/charset is the empty string. -/
theorem c10_search_empty_guard (st : StrState) (needle : List Byte)
    (h : st.m_length = 0 ∨ needle.getD 0 0 = 0) :
    first_index_of_sub st needle = -1 ∧
    last_index_of_sub st needle = -1 ∧
    find_any_matching_index st needle = -1 := by
  unfold first_index_of_sub last_index_of_sub find_any_matching_index
  exact ⟨if_pos h, if_pos h, if_pos h⟩

/-- Witness for C10: an empty string searched for a nonempty needle. -/
theorem c10_search_empty_guard_witness :
    (mkEmpty.m_length = 0 ∨ ([97, 0] : List Byte).getD 0 0 = 0) ∧
    (first_index_of_sub mkEmpty [97, 0] = -1 ∧
     last_index_of_sub mkEmpty [97, 0] = -1 ∧
     find_any_matching_index mkEmpty [97, 0] = -1) :=
  ⟨Or.inl rfl, c10_search_empty_guard mkEmpty [97, 0] (Or.inl rfl)⟩

/-- C6 counterexample: a request whose grown capacity exceeds the 21-bit
field maximum fires no assertion in either reservation operation and both
silently store the wrapped (negative) value in the capacity field. -/
theorem c6_counterexample_silent_capacity_wrap :
    (reserve mkEmpty 1048576 16).asserted = false ∧
    (reserve mkEmpty 1048576 16).m_capacity = 16 - 1048576 ∧
    (reserve_discard mkEmpty 1048576 16).asserted = false ∧
    (reserve_discard mkEmpty 1048576 16).m_capacity = 16 - 1048576 := by
  decide

/-- C6 amended: a local-buffer size of 1024 or more does signal the
assertion hook at construction, but an oversized capacity request is not
checked by either reservation operation: neither reserve nor
reserve_discard fires an assertion, and the value each stores in the
capacity field is the bit-field wrap of request + slack. -/
theorem c6_amended_bound_enforcement (n m : Int)
    (hn : 1024 ≤ n) (hm : capMax < m + 16) :
    (mkSized n).asserted = true ∧
    (reserve mkEmpty m 16).asserted = false ∧
    (reserve mkEmpty m 16).m_capacity = wrap21 (m + 16) ∧
    (reserve_discard mkEmpty m 16).asserted = false ∧
    (reserve_discard mkEmpty m 16).m_capacity = wrap21 (m + 16) := by
  unfold capMax at hm
  have h1 : ¬ m ≤ (0 : Int) := by omega
  have h2 : ¬ m < (0 : Int) := by omega
  refine ⟨?_, ?_, ?_, ?_, ?_⟩
  · have hlt : ¬ n < 1024 := by omega
    simp [mkSized, chk, hlt]
  · simp [reserve, chk, freeOldBuffer, mkEmpty, using_local_buffer, h1, h2]
  · simp [reserve, chk, freeOldBuffer, mkEmpty, using_local_buffer, h1, h2]
  · simp [reserve_discard, chk, freeOldBuffer, mkEmpty, using_local_buffer, h1, h2]
  · simp [reserve_discard, chk, freeOldBuffer, mkEmpty, using_local_buffer, h1, h2]

/-- Witness for C6 amended at local size 1024 and request 2^20. -/
theorem c6_amended_bound_enforcement_witness :
    (1024 : Int) ≤ 1024 ∧ capMax < 1048576 + 16 ∧
    ((mkSized 1024).asserted = true ∧
     (reserve mkEmpty 1048576 16).asserted = false ∧
     (reserve mkEmpty 1048576 16).m_capacity = wrap21 (1048576 + 16) ∧
     (reserve_discard mkEmpty 1048576 16).asserted = false ∧
     (reserve_discard mkEmpty 1048576 16).m_capacity = wrap21 (1048576 + 16)) :=
  ⟨le_refl _, by decide,
   c6_amended_bound_enforcement 1024 1048576 (le_refl _) (by decide)⟩

/-- C7 counterexample: the boolean result of the no-grow formatted write
does not report whether truncation occurred. Formatting six bytes into
capacity 4 truncates (stored length 3) yet returns true, exactly as a
non-truncating write does. -/
theorem c7_counterexample_return_not_truncation :
    (setfv_no_grow (mkSized 4) (some [97, 98, 99, 100, 101, 102])).1 = true ∧
    (setfv_no_grow (mkSized 4) (some [97, 98, 99, 100, 101, 102])).2.m_length = 3 ∧
    (setfv_no_grow (mkSized 10) (some [97, 98])).1 = true ∧
    (setfv_no_grow (mkSized 10) (some [97, 98])).2.m_length = 2 := by
  decide

/-- C7 amended: for a string with nonzero current capacity, the no-grow
formatted write never changes capacity, storage mode, buffer size or
allocation count, stores length min(output length, capacity - 1)
(truncating), and returns whether formatting succeeded: true even when
truncated, false only on an encoding error. -/
theorem c7_amended_no_grow_contract (st : StrState) (out : List Byte)
    (hcap : 1 ≤ st.m_capacity) :
    (setfv_no_grow st (some out)).1 = true ∧
    (setfv_no_grow st (some out)).2.m_capacity = st.m_capacity ∧
    (setfv_no_grow st (some out)).2.kind = st.kind ∧
    (setfv_no_grow st (some out)).2.allocCount = st.allocCount ∧
    (setfv_no_grow st (some out)).2.buf.length = st.buf.length ∧
    (setfv_no_grow st (some out)).2.m_length = min (out.length : Int) (st.m_capacity - 1) ∧
    (setfv_no_grow st none).1 = false ∧
    (setfv_no_grow st none).2.m_capacity = st.m_capacity := by
  refine ⟨rfl, rfl, rfl, rfl, ?_, ?_, rfl, clear_no_free_m_capacity st⟩
  · show (store (vsnprintf_write st.buf st.m_capacity out) _ 0).length = st.buf.length
    rw [store_length]
    unfold vsnprintf_write
    split
    · rfl
    · rw [store_length, memwrite_length]
  · show (if st.m_capacity ≤ (out.length : Int) then st.m_capacity - 1
      else (out.length : Int)) = min (out.length : Int) (st.m_capacity - 1)
    split <;> omega

/-- Witness for C7 amended at capacity 4 and a one-byte output. -/
theorem c7_amended_no_grow_contract_witness :
    1 ≤ (mkSized 4).m_capacity ∧
    ((setfv_no_grow (mkSized 4) (some [97])).1 = true ∧
     (setfv_no_grow (mkSized 4) (some [97])).2.m_capacity = (mkSized 4).m_capacity ∧
     (setfv_no_grow (mkSized 4) (some [97])).2.kind = (mkSized 4).kind ∧
     (setfv_no_grow (mkSized 4) (some [97])).2.allocCount = (mkSized 4).allocCount ∧
     (setfv_no_grow (mkSized 4) (some [97])).2.buf.length = (mkSized 4).buf.length ∧
     (setfv_no_grow (mkSized 4) (some [97])).2.m_length =
       min (([97] : List Byte).length : Int) ((mkSized 4).m_capacity - 1) ∧
     (setfv_no_grow (mkSized 4) none).1 = false ∧
     (setfv_no_grow (mkSized 4) none).2.m_capacity = (mkSized 4).m_capacity) :=
  ⟨by decide, c7_amended_no_grow_contract (mkSized 4) [97] (by decide)⟩

/-- C8 counterexample: set_ref with a valid pointer to an empty string on a
heap-owning instance neither releases the owned buffer nor rebinds: the
instance keeps owns_buffer true, a nonzero capacity and performs no free,
contradicting the claimed unconditional release-and-bind contract. -/
theorem c8_counterexample_empty_source :
    (set_ref (set_cstring mkEmpty [97, 98, 0]) [0] 0).m_owns_buffer = true ∧
    (set_ref (set_cstring mkEmpty [97, 98, 0]) [0] 0).m_capacity ≠ 0 ∧
    (set_ref (set_cstring mkEmpty [97, 98, 0]) [0] 0).freeCount = 0 := by
  decide

/-- C8 amended: for every source whose referenced bytes at the bind offset
are nonempty, set_ref releases a previously owned non-local heap buffer and
binds to the source with capacity 0, owns_buffer false and length equal to
the number of bytes before the terminator at bind time; with an empty
source it instead only clears the string in place. -/
theorem c8_amended_set_ref_binds (st : StrState) (src : List Byte) (first : Int)
    (h : (src.drop first.toNat).getD 0 0 ≠ 0) :
    (set_ref st src first).kind = BufKind.refBuf ∧
    (set_ref st src first).buf = src.drop first.toNat ∧
    (set_ref st src first).m_capacity = 0 ∧
    (set_ref st src first).m_owns_buffer = false ∧
    (set_ref st src first).m_length = strlen (src.drop first.toNat) ∧
    (st.m_owns_buffer = true ∧ using_local_buffer st = false →
      (set_ref st src first).freeCount = st.freeCount + 1) ∧
    (¬(st.m_owns_buffer = true ∧ using_local_buffer st = false) →
      (set_ref st src first).freeCount = st.freeCount) := by
  unfold set_ref
  rw [if_neg h]
  refine ⟨rfl, rfl, rfl, rfl, rfl, ?_, ?_⟩
  · intro hfree
    show (freeOldBuffer st).freeCount = st.freeCount + 1
    exact freeOldBuffer_freeCount_of_freed st hfree
  · intro hkeep
    show (freeOldBuffer st).freeCount = st.freeCount
    exact freeOldBuffer_freeCount_of_kept st hkeep

/-- Witness for C8 amended: binding a default string to "hey!" yields
length 4, capacity 0, no ownership. -/
theorem c8_amended_set_ref_binds_witness :
    (([104, 101, 121, 33, 0] : List Byte).drop (0 : Int).toNat).getD 0 0 ≠ 0 ∧
    ((set_ref mkEmpty [104, 101, 121, 33, 0] 0).kind = BufKind.refBuf ∧
     (set_ref mkEmpty [104, 101, 121, 33, 0] 0).buf =
       ([104, 101, 121, 33, 0] : List Byte).drop (0 : Int).toNat ∧
     (set_ref mkEmpty [104, 101, 121, 33, 0] 0).m_capacity = 0 ∧
     (set_ref mkEmpty [104, 101, 121, 33, 0] 0).m_owns_buffer = false ∧
     (set_ref mkEmpty [104, 101, 121, 33, 0] 0).m_length =
       strlen (([104, 101, 121, 33, 0] : List Byte).drop (0 : Int).toNat) ∧
     (mkEmpty.m_owns_buffer = true ∧ using_local_buffer mkEmpty = false →
       (set_ref mkEmpty [104, 101, 121, 33, 0] 0).freeCount = mkEmpty.freeCount + 1) ∧
     (¬(mkEmpty.m_owns_buffer = true ∧ using_local_buffer mkEmpty = false) →
       (set_ref mkEmpty [104, 101, 121, 33, 0] 0).freeCount = mkEmpty.freeCount)) :=
  ⟨by decide, c8_amended_set_ref_binds mkEmpty [104, 101, 121, 33, 0] 0 (by decide)⟩

/-- C5 counterexample: reserve does not always preserve the stored
character sequence. A str_sized<16> bound by set_ref to a 20-byte external
string, asked to reserve 10 slots, redirects into the 16-byte local buffer
and the copy of the 21 content bytes overruns it: afterwards the C-string
content differs from the content before the call. -/
theorem c5_counterexample_reserve_content_loss :
    c_str (reserve (set_ref (mkSized 16)
        [65, 66, 67, 68, 69, 70, 71, 72, 73, 74, 75, 76, 77, 78, 79, 80, 81, 82, 83, 84, 0] 0)
        10 16) ≠
      c_str (set_ref (mkSized 16)
        [65, 66, 67, 68, 69, 70, 71, 72, 73, 74, 75, 76, 77, 78, 79, 80, 81, 82, 83, 84, 0] 0) := by
  decide

/-- C4 counterexample: content so long that the grown heap capacity
overflows the 21-bit field makes capacity() report the wrapped (negative)
value, violating the claimed capacity() >= L + 1 for the heap branch. -/
theorem c4_counterexample_capacity_wrap :
    ¬ ((List.replicate 1048576 (1 : Byte)).length : Int) + 1 ≤
      (set_cstring (mkSized 16) (List.replicate 1048576 (1 : Byte) ++ [0])).m_capacity := by
  have hs : ∀ c ∈ List.replicate 1048576 (1 : Byte), c ≠ 0 := by
    intro c hc
    rw [List.eq_of_mem_replicate hc]
    simp
  have hlen := strlen_append_term (List.replicate 1048576 (1 : Byte)) hs
  have hlenval : ((List.replicate 1048576 (1 : Byte)).length : Int) = 1048576 := by
    rw [List.length_replicate]
    norm_num
  have hne : ¬((List.replicate 1048576 (1 : Byte) ++ [0]).getD 0 0 = 0 ∨
      ((List.replicate 1048576 (1 : Byte)).length : Int) = 0) := by
    intro h
    rcases h with h | h
    · rw [getD_zero_replicate_append 1048576 1 [0] (by omega)] at h
      simp at h
    · rw [hlenval] at h
      omega
  have hcap16 : (mkSized 16).m_capacity = 16 := by decide
  have hlbs16 : (mkSized 16).m_local_buffer_size = 16 := by decide
  have hgrow : (mkSized 16).m_capacity <
      ((List.replicate 1048576 (1 : Byte)).length : Int) + 1 := by
    rw [hcap16, hlenval]; omega
  have hRD := reserve_discard_heap_fields (mkSized 16)
    (((List.replicate 1048576 (1 : Byte)).length : Int) + 1) 16
    (by norm_num)
    (by rw [hcap16, hlenval]; omega)
    (by rw [hlbs16, hlenval]; omega)
  have hcapval : (set_cstring (mkSized 16)
      (List.replicate 1048576 (1 : Byte) ++ [0])).m_capacity =
      wrap21 (((List.replicate 1048576 (1 : Byte)).length : Int) + 1 + 16) := by
    unfold set_cstring
    rw [hlen]
    rw [set_grow_m_capacity (mkSized 16) _ _ (by rw [hlenval]; omega) hne hgrow]
    exact hRD.2.1
  rw [hcapval, hlenval]
  have : wrap21 (1048576 + 1 + 16) = 17 - 1048576 := by decide
  rw [this]
  omega

/-- C4 amended: for a str_sized<N> instance (1 <= N <= 1023) assigned
NUL-free content s of length L with set, provided the grown capacity L + 17
stays within the 21-bit capacity field: if L < N the instance remains in
local mode with no heap allocation; if L >= N it leaves local mode after
exactly one heap allocation with owns_buffer() true and capacity()
>= L + 1. For oversized L the stored capacity silently wraps. -/
theorem c4_amended_sized_set_modes (N : Int) (s : List Byte)
    (hN1 : 1 ≤ N) (hN2 : N ≤ 1023)
    (hs : ∀ c ∈ s, c ≠ 0)
    (hrep : (s.length : Int) + 17 ≤ capMax) :
    ((s.length : Int) < N →
      using_local_buffer (set_cstring (mkSized N) (s ++ [0])) = true ∧
      (set_cstring (mkSized N) (s ++ [0])).allocCount = 0) ∧
    (N ≤ (s.length : Int) →
      using_local_buffer (set_cstring (mkSized N) (s ++ [0])) = false ∧
      (set_cstring (mkSized N) (s ++ [0])).m_owns_buffer = true ∧
      (set_cstring (mkSized N) (s ++ [0])).allocCount = 1 ∧
      (s.length : Int) + 1 ≤ (set_cstring (mkSized N) (s ++ [0])).m_capacity) := by
  have hcapmax : capMax = 1048575 := rfl
  have hk : (mkSized N).kind = BufKind.localBuf := by simp [mkSized, chk_kind]
  have hcap : (mkSized N).m_capacity = N := by
    simp only [mkSized, chk_m_capacity]
    exact wrap21_eq_self N (by omega) (by omega)
  have hlbs : (mkSized N).m_local_buffer_size = wrap10 N := by
    simp [mkSized, chk_m_local_buffer_size]
  have halloc : (mkSized N).allocCount = 0 := by simp [mkSized, chk_allocCount]
  have hlen := strlen_append_term s hs
  have hwne : wrap10 N ≠ 0 := wrap10_ne_zero N hN1 hN2
  have hwle : wrap10 N ≤ N := wrap10_le_self N (by omega)
  unfold set_cstring
  rw [hlen]
  constructor
  · intro hlt
    by_cases hnil : s = []
    · subst hnil
      simp only [List.length_nil, Nat.cast_zero]
      rw [set_clear_eq (mkSized N) ([] ++ [0]) 0 le_rfl (Or.inr rfl)]
      refine ⟨?_, ?_⟩
      · simp only [using_local_buffer, clear_no_free_kind, clear_no_free_m_local_buffer_size,
          hk, hlbs]
        simp [hwne]
      · rw [clear_no_free_allocCount, halloc]
    · have hpos : 0 < s.length := List.length_pos.mpr hnil
      have hL0 : (0 : Int) ≤ (s.length : Int) := by positivity
      have hhead : ¬((s ++ [0]).getD 0 0 = 0 ∨ (s.length : Int) = 0) := by
        intro h
        rcases h with h | h
        · cases s with
          | nil => exact hnil rfl
          | cons a s2 =>
            refine hs a (by simp) ?_
            simpa [List.getD] using h
        · omega
      have hnogrow : ¬ (mkSized N).m_capacity < (s.length : Int) + 1 := by
        rw [hcap]; omega
      refine ⟨?_, ?_⟩
      · simp only [using_local_buffer,
          set_nogrow_kind (mkSized N) (s ++ [0]) (s.length : Int) hL0 hhead hnogrow,
          set_nogrow_m_local_buffer_size (mkSized N) (s ++ [0]) (s.length : Int) hL0 hhead hnogrow,
          hk, hlbs]
        simp [hwne]
      · rw [set_nogrow_allocCount (mkSized N) (s ++ [0]) (s.length : Int) hL0 hhead hnogrow,
          halloc]
  · intro hge
    have hnil : s ≠ [] := by
      intro h
      subst h
      simp at hge
      omega
    have hpos : 0 < s.length := List.length_pos.mpr hnil
    have hL0 : (0 : Int) ≤ (s.length : Int) := by positivity
    have hhead : ¬((s ++ [0]).getD 0 0 = 0 ∨ (s.length : Int) = 0) := by
      intro h
      rcases h with h | h
      · cases s with
        | nil => exact hnil rfl
        | cons a s2 =>
          refine hs a (by simp) ?_
          simpa [List.getD] using h
      · omega
    have hgrow : (mkSized N).m_capacity < (s.length : Int) + 1 := by
      rw [hcap]; omega
    have hRD := reserve_discard_heap_fields (mkSized N) ((s.length : Int) + 1) 16
      (by norm_num)
      (by rw [hcap]; omega)
      (by rw [hlbs]; omega)
    refine ⟨?_, ?_, ?_, ?_⟩
    · simp only [using_local_buffer,
        set_grow_kind (mkSized N) (s ++ [0]) (s.length : Int) hL0 hhead hgrow,
        hRD.1]
      simp
    · exact set_grow_m_owns_buffer (mkSized N) (s ++ [0]) (s.length : Int) hL0 hhead hgrow
    · rw [set_grow_allocCount (mkSized N) (s ++ [0]) (s.length : Int) hL0 hhead hgrow,
        hRD.2.2.2.2.1, halloc]
    · rw [set_grow_m_capacity (mkSized N) (s ++ [0]) (s.length : Int) hL0 hhead hgrow,
        hRD.2.1, wrap21_eq_self ((s.length : Int) + 1 + 16) (by omega) (by omega)]
      omega

/-- Witness for C4 amended: str_sized<8> assigned a ten-byte file name,
exercising the heap branch of the conjunction. -/
theorem c4_amended_sized_set_modes_witness :
    (1 : Int) ≤ 8 ∧ (8 : Int) ≤ 1023 ∧
    (∀ c ∈ ([102, 105, 108, 101, 110, 97, 109, 101, 46, 104] : List Byte), c ≠ 0) ∧
    ((([102, 105, 108, 101, 110, 97, 109, 101, 46, 104] : List Byte).length : Int) + 17 ≤ capMax) ∧
    (((([102, 105, 108, 101, 110, 97, 109, 101, 46, 104] : List Byte).length : Int) < 8 →
      using_local_buffer (set_cstring (mkSized 8)
        ([102, 105, 108, 101, 110, 97, 109, 101, 46, 104] ++ [0])) = true ∧
      (set_cstring (mkSized 8)
        ([102, 105, 108, 101, 110, 97, 109, 101, 46, 104] ++ [0])).allocCount = 0) ∧
    ((8 : Int) ≤ (([102, 105, 108, 101, 110, 97, 109, 101, 46, 104] : List Byte).length : Int) →
      using_local_buffer (set_cstring (mkSized 8)
        ([102, 105, 108, 101, 110, 97, 109, 101, 46, 104] ++ [0])) = false ∧
      (set_cstring (mkSized 8)
        ([102, 105, 108, 101, 110, 97, 109, 101, 46, 104] ++ [0])).m_owns_buffer = true ∧
      (set_cstring (mkSized 8)
        ([102, 105, 108, 101, 110, 97, 109, 101, 46, 104] ++ [0])).allocCount = 1 ∧
      (([102, 105, 108, 101, 110, 97, 109, 101, 46, 104] : List Byte).length : Int) + 1 ≤
        (set_cstring (mkSized 8)
          ([102, 105, 108, 101, 110, 97, 109, 101, 46, 104] ++ [0])).m_capacity)) :=
  ⟨by norm_num, by norm_num, by decide, by decide,
   c4_amended_sized_set_modes 8 [102, 105, 108, 101, 110, 97, 109, 101, 46, 104]
     (by norm_num) (by norm_num) (by decide) (by decide)⟩

/-- C5 amended: reserve(n) guarantees capacity() >= n, never shrinks the
capacity, and preserves length and the C-string content, provided the grown
capacity n + 16 fits the 21-bit field and, whenever the request exceeds the
current capacity, the current content fits the request (length + 1 <= n);
a subsequent reserve with a request n2 <= n is then the identity. -/
theorem c5_amended_reserve_contract (st : StrState) (n n2 : Int)
    (hwf : Wf st) (hrep : n + 16 ≤ capMax)
    (hfit : n ≤ st.m_capacity ∨ st.m_length + 1 ≤ n)
    (hn2 : n2 ≤ n) :
    n ≤ (reserve st n 16).m_capacity ∧
    st.m_capacity ≤ (reserve st n 16).m_capacity ∧
    (reserve st n 16).m_length = st.m_length ∧
    c_str (reserve st n 16) = c_str st ∧
    reserve (reserve st n 16) n2 16 = reserve st n 16 := by
  have hx : (0 : Int) ≤ 16 := by norm_num
  have hcapmax : capMax = 1048575 := rfl
  have hwf2 := hwf
  obtain ⟨h1, h2, h3, h4, h5, h6, h7, h8, h9, h10⟩ := hwf2
  by_cases hno : n ≤ st.m_capacity
  · rw [reserve_noop_eq st n 16 hx hno]
    exact ⟨hno, le_refl _, rfl, rfl, reserve_noop_eq st n2 16 hx (le_trans hn2 hno)⟩
  · have hlen1 : st.m_length + 1 ≤ n := hfit.resolve_left hno
    by_cases hloc : n < st.m_local_buffer_size
    · rw [reserve_local_eq st n 16 hx hno hloc]
      have hw : wrap21 st.m_local_buffer_size = st.m_local_buffer_size :=
        wrap21_eq_self _ (by omega) (by omega)
      refine ⟨?_, ?_, ?_, ?_, ?_⟩
      · show n ≤ wrap21 st.m_local_buffer_size
        omega
      · show st.m_capacity ≤ wrap21 st.m_local_buffer_size
        omega
      · show (freeOldBuffer st).m_length = st.m_length
        exact freeOldBuffer_m_length st
      · show (strcpy_into (List.replicate st.m_local_buffer_size.toNat junk)
          st.buf).takeWhile (· != 0) = c_str st
        exact c_str_strcpy_into st hwf st.m_local_buffer_size.toNat (by omega)
      · refine reserve_noop_eq _ n2 16 hx ?_
        show n2 ≤ wrap21 st.m_local_buffer_size
        omega
    · rw [reserve_heap_eq st n 16 hx hno hloc]
      have hw : wrap21 (n + 16) = n + 16 :=
        wrap21_eq_self _ (by omega) (by omega)
      refine ⟨?_, ?_, ?_, ?_, ?_⟩
      · show n ≤ wrap21 (n + 16)
        omega
      · show st.m_capacity ≤ wrap21 (n + 16)
        omega
      · show (freeOldBuffer { st with allocCount := st.allocCount + 1 }).m_length = st.m_length
        rw [freeOldBuffer_m_length]
      · show (strcpy_into (List.replicate (n + 16).toNat junk)
          st.buf).takeWhile (· != 0) = c_str st
        exact c_str_strcpy_into st hwf (n + 16).toNat (by omega)
      · refine reserve_noop_eq _ n2 16 hx ?_
        show n2 ≤ wrap21 (n + 16)
        omega

/-- Witness for C5 amended: a fresh default string reserving ten slots,
then re-reserving five. -/
theorem c5_amended_reserve_contract_witness :
    Wf mkEmpty ∧ ((10 : Int) + 16 ≤ capMax) ∧
    ((10 : Int) ≤ mkEmpty.m_capacity ∨ mkEmpty.m_length + 1 ≤ 10) ∧ ((5 : Int) ≤ 10) ∧
    ((10 : Int) ≤ (reserve mkEmpty 10 16).m_capacity ∧
     mkEmpty.m_capacity ≤ (reserve mkEmpty 10 16).m_capacity ∧
     (reserve mkEmpty 10 16).m_length = mkEmpty.m_length ∧
     c_str (reserve mkEmpty 10 16) = c_str mkEmpty ∧
     reserve (reserve mkEmpty 10 16) 5 16 = reserve mkEmpty 10 16) :=
  ⟨by decide, by decide, by decide, by norm_num,
   c5_amended_reserve_contract mkEmpty 10 5 (by decide) (by decide) (by decide) (by norm_num)⟩

end StrModel
